import Mathlib

/-
Verification of the Cash-Book replication, aggregation and day-end engine
(shallow embedding of src/App.tsx and src/types.ts).

Conventions of the embedding:
  * JavaScript numbers that hold money values are modelled as rationals;
    the source never divides, so all arithmetic stays exact.
  * `Record<string, T>` maps are modelled as association lists
    `List (String × T)`; the spread update and `delete` of the source are
    `mapInsert` and `mapErase` below, keeping the JS object semantics
    (an existing key keeps its position, a new key is appended).
  * `JSON.parse` on entry payloads is modelled by an arbitrary decoder
    `dec : String -> Option e`; `none` is a parse failure, which in the
    source raises an exception (there is no try/catch around the parse),
    so the subscription handler is `Except`-valued.
  * Store writes emitted by the editor are reified as a `StoreWrite` list;
    applying a write to local state is exactly what the corresponding
    subscription handler of the source does on its delivery.
-/

namespace CashBook

/-- Payment methods, from src/types.ts. -/
inductive PaymentMethod
  | CASH
  | CARD
  | PAYPAL
deriving DecidableEq, Repr

/-- Device classes, from src/types.ts. -/
inductive DeviceType
  | laptop
  | android
  | iphone
deriving DecidableEq, Repr

/-- Out-party entry, from src/types.ts. -/
structure OutPartyEntry where
  id : String
  index : ℕ
  method : PaymentMethod
  amount : ℚ
deriving DecidableEq, Repr

/-- Main ledger entry, from src/types.ts. -/
structure MainEntry where
  id : String
  roomNo : String
  description : String
  method : PaymentMethod
  cashIn : ℚ
  cashOut : ℚ
deriving DecidableEq, Repr

/-- Exchange-rate pair, from the rates state of src/App.tsx. -/
structure Rates where
  usd : ℚ
  eur : ℚ
deriving DecidableEq, Repr

/-- Daily snapshot embedded in a history record, from src/types.ts. -/
structure DailyRecord where
  date : String
  openingBalance : ℚ
  outPartyEntries : List OutPartyEntry
  mainEntries : List MainEntry
  rates : Rates
deriving DecidableEq, Repr

/-- History record, from src/types.ts. -/
structure HistoryRecord where
  date : String
  record : DailyRecord
  finalBalance : ℚ
deriving DecidableEq, Repr

/-- Result record of the totals computation (the object literal returned at
src/App.tsx lines 138-143). -/
structure Totals where
  opCash : ℚ
  opCard : ℚ
  opPaypal : ℚ
  totalCard : ℚ
  totalPaypal : ℚ
  totalCashIn : ℚ
  totalCashOut : ℚ
  balance : ℚ
deriving DecidableEq, Repr

/-- JS `.reduce((s, e) => s + (e.amount || 0), 0)` over a list of out-party
entries.  `amount` is always present in the typed model (the spec represents
absence as zero), so `e.amount || 0` is `e.amount`. -/
def reduceAmount (l : List OutPartyEntry) : ℚ :=
  l.foldl (fun s e => s + e.amount) 0

/-- JS `.reduce((s, e) => s + (e.cashIn || 0), 0)` over main entries. -/
def reduceCashIn (l : List MainEntry) : ℚ :=
  l.foldl (fun s e => s + e.cashIn) 0

/-- JS `.reduce((s, e) => s + (e.cashOut || 0), 0)` over main entries. -/
def reduceCashOut (l : List MainEntry) : ℚ :=
  l.foldl (fun s e => s + e.cashOut) 0

/-- The `totals` computation of src/App.tsx lines 116-144, verbatim:
filters and reductions in source order, then the derived sums. -/
def totals (outPartyEntries : List OutPartyEntry) (mainEntries : List MainEntry)
    (openingBalance : ℚ) : Totals :=
  let opCash := reduceAmount (outPartyEntries.filter (fun e => e.method == PaymentMethod.CASH))
  let opCard := reduceAmount (outPartyEntries.filter (fun e => e.method == PaymentMethod.CARD))
  let opPaypal := reduceAmount (outPartyEntries.filter (fun e => e.method == PaymentMethod.PAYPAL))
  let mainDirectIn := reduceCashIn mainEntries
  let mainDirectOut := reduceCashOut mainEntries
  let mainCardIn := reduceCashIn (mainEntries.filter (fun e => e.method == PaymentMethod.CARD))
  let mainPaypalIn := reduceCashIn (mainEntries.filter (fun e => e.method == PaymentMethod.PAYPAL))
  let totalCard := opCard + mainCardIn
  let totalPaypal := opPaypal + mainPaypalIn
  let totalCashIn := openingBalance + mainDirectIn + opCash + opCard + opPaypal
  let totalCashOut := mainDirectOut + totalCard + totalPaypal
  { opCash := opCash, opCard := opCard, opPaypal := opPaypal,
    totalCard := totalCard, totalPaypal := totalPaypal,
    totalCashIn := totalCashIn, totalCashOut := totalCashOut,
    balance := totalCashIn - totalCashOut }

/-- Totals written exactly as the formulas of spec section 4.3 state them,
with each Σ rendered as the sum of the mapped values over the filtered list.
This definition follows the words of the spec and is compared with `totals`,
which follows the source. -/
def aggregateSpec (outPartyEntries : List OutPartyEntry) (mainEntries : List MainEntry)
    (openingBalance : ℚ) : Totals :=
  let opCash := ((outPartyEntries.filter (fun e => e.method == PaymentMethod.CASH)).map (fun e => e.amount)).sum
  let opCard := ((outPartyEntries.filter (fun e => e.method == PaymentMethod.CARD)).map (fun e => e.amount)).sum
  let opPaypal := ((outPartyEntries.filter (fun e => e.method == PaymentMethod.PAYPAL)).map (fun e => e.amount)).sum
  let mainCashIn := (mainEntries.map (fun e => e.cashIn)).sum
  let mainCashOut := (mainEntries.map (fun e => e.cashOut)).sum
  let mainCardIn := ((mainEntries.filter (fun e => e.method == PaymentMethod.CARD)).map (fun e => e.cashIn)).sum
  let mainPaypalIn := ((mainEntries.filter (fun e => e.method == PaymentMethod.PAYPAL)).map (fun e => e.cashIn)).sum
  let totalCard := opCard + mainCardIn
  let totalPaypal := opPaypal + mainPaypalIn
  let totalCashIn := openingBalance + mainCashIn + opCash + opCard + opPaypal
  let totalCashOut := mainCashOut + totalCard + totalPaypal
  { opCash := opCash, opCard := opCard, opPaypal := opPaypal,
    totalCard := totalCard, totalPaypal := totalPaypal,
    totalCashIn := totalCashIn, totalCashOut := totalCashOut,
    balance := totalCashIn - totalCashOut }

theorem reduceAmount_eq_sum (l : List OutPartyEntry) :
    reduceAmount l = (l.map (fun e => e.amount)).sum := by
  suffices h : ∀ a : ℚ, l.foldl (fun s e => s + e.amount) a = a + (l.map (fun e => e.amount)).sum by
    simpa [reduceAmount] using h 0
  induction l with
  | nil => intro a; simp
  | cons e t ih => intro a; simp [List.foldl_cons, ih, add_assoc]

theorem reduceCashIn_eq_sum (l : List MainEntry) :
    reduceCashIn l = (l.map (fun e => e.cashIn)).sum := by
  suffices h : ∀ a : ℚ, l.foldl (fun s e => s + e.cashIn) a = a + (l.map (fun e => e.cashIn)).sum by
    simpa [reduceCashIn] using h 0
  induction l with
  | nil => intro a; simp
  | cons e t ih => intro a; simp [List.foldl_cons, ih, add_assoc]

theorem reduceCashOut_eq_sum (l : List MainEntry) :
    reduceCashOut l = (l.map (fun e => e.cashOut)).sum := by
  suffices h : ∀ a : ℚ, l.foldl (fun s e => s + e.cashOut) a = a + (l.map (fun e => e.cashOut)).sum by
    simpa [reduceCashOut] using h 0
  induction l with
  | nil => intro a; simp
  | cons e t ih => intro a; simp [List.foldl_cons, ih, add_assoc]

theorem totals_eq_aggregateSpec (op : List OutPartyEntry) (m : List MainEntry) (b : ℚ) :
    totals op m b = aggregateSpec op m b := by
  simp [totals, aggregateSpec, reduceAmount_eq_sum, reduceCashIn_eq_sum, reduceCashOut_eq_sum]

/-- Example data of the formula-conformance test in spec section 8. -/
def exOutParty : List OutPartyEntry :=
  [ { id := "o1", index := 1, method := PaymentMethod.CASH, amount := 500 },
    { id := "o2", index := 2, method := PaymentMethod.CARD, amount := 200 } ]

/-- Example main entries of the formula-conformance test in spec section 8. -/
def exMain : List MainEntry :=
  [ { id := "m1", roomNo := "1", description := "a", method := PaymentMethod.CASH,
      cashIn := 300, cashOut := 100 },
    { id := "m2", roomNo := "2", description := "b", method := PaymentMethod.CARD,
      cashIn := 50, cashOut := 0 } ]

/-- C1: the aggregation function computes exactly the spec formulas
(`totals` of src/App.tsx agrees with `aggregateSpec`, the verbatim rendering
of the section 4.3 formulas, on every input), and on the concrete example
(opening balance 1000, out-party entries CASH 500 and CARD 200, main entries
cashIn 300 / cashOut 100 CASH and cashIn 50 / cashOut 0 CARD) it returns
opCash 500, opCard 200, opPaypal 0, totalCard 250, totalPaypal 0,
totalCashIn 2050, totalCashOut 350, finalBalance 1700. -/
theorem totals_formula_conformance :
    (∀ (op : List OutPartyEntry) (m : List MainEntry) (b : ℚ),
        totals op m b = aggregateSpec op m b) ∧
    totals exOutParty exMain 1000 =
      { opCash := 500, opCard := 200, opPaypal := 0,
        totalCard := 250, totalPaypal := 0,
        totalCashIn := 2050, totalCashOut := 350, balance := 1700 } := by
  refine ⟨totals_eq_aggregateSpec, ?_⟩
  simp [totals, exOutParty, exMain, reduceAmount, reduceCashIn, reduceCashOut]
  norm_num

theorem sum_map_filter_perm {α β : Type} [AddCommMonoid β] {l₁ l₂ : List α}
    (p : α → Bool) (f : α → β) (h : l₁.Perm l₂) :
    ((l₁.filter p).map f).sum = ((l₂.filter p).map f).sum :=
  ((h.filter p).map f).sum_eq

/-- C6: the aggregation is deterministic and order-independent: on any two
permutations of the same out-party multiset and the same main-entry multiset,
with the same opening balance, `totals` returns the identical record of all
eight components.  Totality over arbitrary inputs is by construction:
`totals` is a total function of its three arguments. -/
theorem totals_order_independent (op₁ op₂ : List OutPartyEntry)
    (m₁ m₂ : List MainEntry) (b : ℚ)
    (hop : op₁.Perm op₂) (hm : m₁.Perm m₂) :
    totals op₁ m₁ b = totals op₂ m₂ b := by
  rw [totals_eq_aggregateSpec, totals_eq_aggregateSpec]
  simp only [aggregateSpec]
  rw [sum_map_filter_perm _ _ hop, sum_map_filter_perm _ _ hop, sum_map_filter_perm _ _ hop,
    sum_map_filter_perm _ _ hm, sum_map_filter_perm _ _ hm,
    (hm.map (fun e => e.cashIn)).sum_eq, (hm.map (fun e => e.cashOut)).sum_eq]

/-- Witness for C6 at a concrete input: swapping the two example out-party
entries and the two example main entries leaves every total unchanged. -/
theorem totals_order_independent_witness :
    totals exOutParty exMain 1000 = totals exOutParty.reverse exMain.reverse 1000 :=
  totals_order_independent exOutParty exOutParty.reverse exMain exMain.reverse 1000
    (List.reverse_perm exOutParty).symm (List.reverse_perm exMain).symm

theorem reduceAmount_nonneg {l : List OutPartyEntry}
    (h : ∀ e ∈ l, 0 ≤ e.amount) : 0 ≤ reduceAmount l := by
  rw [reduceAmount_eq_sum]
  exact List.sum_nonneg (by intro x hx; obtain ⟨e, he, rfl⟩ := List.mem_map.mp hx; exact h e he)

theorem reduceCashIn_nonneg {l : List MainEntry}
    (h : ∀ e ∈ l, 0 ≤ e.cashIn) : 0 ≤ reduceCashIn l := by
  rw [reduceCashIn_eq_sum]
  exact List.sum_nonneg (by intro x hx; obtain ⟨e, he, rfl⟩ := List.mem_map.mp hx; exact h e he)

theorem reduceCashOut_nonneg {l : List MainEntry}
    (h : ∀ e ∈ l, 0 ≤ e.cashOut) : 0 ≤ reduceCashOut l := by
  rw [reduceCashOut_eq_sum]
  exact List.sum_nonneg (by intro x hx; obtain ⟨e, he, rfl⟩ := List.mem_map.mp hx; exact h e he)

/-- Counterexample to C9 as stated: with no entries at all (so every entry
field is vacuously non-negative) and the signed opening balance -1 — the spec
itself declares OpeningBalance a signed scalar — the component
`totalCashIn` of `totals` is negative. -/
theorem totals_negative_totalCashIn_cex :
    (∀ e ∈ ([] : List OutPartyEntry), 0 ≤ e.amount) ∧
    (∀ e ∈ ([] : List MainEntry), 0 ≤ e.cashIn ∧ 0 ≤ e.cashOut) ∧
    (totals [] [] (-1)).totalCashIn < 0 := by
  refine ⟨by simp, by simp, ?_⟩
  simp [totals, reduceAmount, reduceCashIn, reduceCashOut]

/-- C9 amended: when every entry field is non-negative AND the opening
balance is non-negative, every component of `totals` except `balance`
(the final balance) is non-negative. -/
theorem totals_nonneg (op : List OutPartyEntry) (m : List MainEntry) (b : ℚ)
    (hb : 0 ≤ b)
    (hop : ∀ e ∈ op, 0 ≤ e.amount)
    (hm : ∀ e ∈ m, 0 ≤ e.cashIn ∧ 0 ≤ e.cashOut) :
    0 ≤ (totals op m b).opCash ∧ 0 ≤ (totals op m b).opCard ∧
    0 ≤ (totals op m b).opPaypal ∧ 0 ≤ (totals op m b).totalCard ∧
    0 ≤ (totals op m b).totalPaypal ∧ 0 ≤ (totals op m b).totalCashIn ∧
    0 ≤ (totals op m b).totalCashOut := by
  have hopF : ∀ p : OutPartyEntry → Bool, 0 ≤ reduceAmount (op.filter p) := by
    intro p
    exact reduceAmount_nonneg (fun e he => hop e (List.mem_of_mem_filter he))
  have hmInF : ∀ p : MainEntry → Bool, 0 ≤ reduceCashIn (m.filter p) := by
    intro p
    exact reduceCashIn_nonneg (fun e he => (hm e (List.mem_of_mem_filter he)).1)
  have hmIn : 0 ≤ reduceCashIn m := reduceCashIn_nonneg (fun e he => (hm e he).1)
  have hmOut : 0 ≤ reduceCashOut m := reduceCashOut_nonneg (fun e he => (hm e he).2)
  simp only [totals]
  refine ⟨hopF _, hopF _, hopF _, add_nonneg (hopF _) (hmInF _),
    add_nonneg (hopF _) (hmInF _), ?_, ?_⟩
  · exact add_nonneg (add_nonneg (add_nonneg (add_nonneg hb hmIn) (hopF _)) (hopF _)) (hopF _)
  · exact add_nonneg (add_nonneg hmOut (add_nonneg (hopF _) (hmInF _)))
      (add_nonneg (hopF _) (hmInF _))

/-- Association-list model of a JS object map: JS `delete next[id]`
(src/App.tsx lines 77-81 and 91-95). -/
def mapErase {α : Type} (m : List (String × α)) (id : String) : List (String × α) :=
  m.filter (fun p => p.1 ≠ id)

/-- Association-list model of the JS spread update (src/App.tsx lines 84
and 98): an existing key keeps its position and gets the new value, a new
key is appended in insertion order. -/
def mapInsert {α : Type} (m : List (String × α)) (id : String) (v : α) : List (String × α) :=
  if m.any (fun p => p.1 = id) then m.map (fun p => if p.1 = id then (id, v) else p)
  else m ++ [(id, v)]

/-- Lookup of a key in the association-list model of a JS object map. -/
def lookupKey {α : Type} (m : List (String × α)) (id : String) : Option α :=
  (m.find? (fun p => p.1 = id)).map Prod.snd

/-- Value delivered by a store subscription: the Gun callback receives
either `null` (the tombstone sentinel) or a string payload. -/
inductive StoreVal
  | tombstone
  | payload (s : String)
deriving DecidableEq, Repr

/-- Subscription handler of src/App.tsx lines 75-100 (the outParty and
mainEntries handlers are textually identical up to the collection): a
tombstone deletes the key from the local map, a payload is deserialized and
upserted.  `dec` stands for `JSON.parse`; the source wraps the parse in no
try/catch, so a failing parse (`dec s = none`) raises out of the callback,
modelled as `Except.error`. -/
def onCollectionNotification {α : Type} (dec : String → Option α)
    (data : StoreVal) (id : String) (m : List (String × α)) :
    Except Unit (List (String × α)) :=
  match data with
  | StoreVal.tombstone => Except.ok (mapErase m id)
  | StoreVal.payload s =>
    match dec s with
    | some e => Except.ok (mapInsert m id e)
    | none => Except.error ()

/-- Delivery of a sequence of notifications `(value, id)` to a subscribed
replica, in arrival order; an uncaught deserialization exception aborts the
run. -/
def deliverAll {α : Type} (dec : String → Option α)
    (evs : List (StoreVal × String)) (m : List (String × α)) :
    Except Unit (List (String × α)) :=
  match evs with
  | [] => Except.ok m
  | ev :: rest =>
    match onCollectionNotification dec ev.1 ev.2 m with
    | Except.ok m2 => deliverAll dec rest m2
    | Except.error u => Except.error u

/-- Concrete out-party entry used by the closed channel theorems. -/
def e0 : OutPartyEntry :=
  { id := "X", index := 1, method := PaymentMethod.CASH, amount := 500 }

/-- Concrete decoder standing in for JSON.parse in closed theorems: the
payload string "E" deserializes to `e0`, anything else fails to parse. -/
def dec0 : String → Option OutPartyEntry :=
  fun s => if s = "E" then some e0 else none

theorem lookupKey_cons {α : Type} (a : String × α) (t : List (String × α)) (id : String) :
    lookupKey (a :: t) id = if a.1 = id then some a.2 else lookupKey t id := by
  simp only [lookupKey, List.find?_cons]
  by_cases h : a.1 = id <;> simp [h]

theorem lookupKey_append_single {α : Type} (m : List (String × α)) (id : String) (v : α)
    (h : ∀ p ∈ m, p.1 ≠ id) : lookupKey (m ++ [(id, v)]) id = some v := by
  induction m with
  | nil => simp [lookupKey_cons, lookupKey]
  | cons a t ih =>
    have ha : a.1 ≠ id := h a (List.mem_cons_self a t)
    rw [List.cons_append, lookupKey_cons, if_neg ha]
    exact ih (fun p hp => h p (List.mem_cons_of_mem a hp))

theorem lookupKey_map_update {α : Type} (m : List (String × α)) (id : String) (v : α)
    (h : m.any (fun p => p.1 = id) = true) :
    lookupKey (m.map (fun p => if p.1 = id then (id, v) else p)) id = some v := by
  induction m with
  | nil => simp at h
  | cons a t ih =>
    by_cases ha : a.1 = id
    · rw [List.map_cons, if_pos ha, lookupKey_cons]
      simp
    · rw [List.map_cons, if_neg ha, lookupKey_cons, if_neg ha]
      have ht : t.any (fun p => p.1 = id) = true := by
        simpa [List.any_cons, ha] using h
      exact ih ht

theorem lookupKey_mapInsert {α : Type} (m : List (String × α)) (id : String) (v : α) :
    lookupKey (mapInsert m id v) id = some v := by
  by_cases h : m.any (fun p => p.1 = id) = true
  · rw [mapInsert, if_pos (by simpa using h)]
    exact lookupKey_map_update m id v h
  · rw [mapInsert, if_neg (by simpa using h)]
    refine lookupKey_append_single m id v ?_
    intro p hp
    have := List.any_eq_true.not.mp h
    push_neg at this
    simpa using this p hp

/-- Counterexample to C2 as stated: with the concrete decoder `dec0`,
delivering the tombstone for id X first and the creation payload afterwards
leaves X PRESENT in the replica's collection (bound to the created entry),
not absent — the handler of src/App.tsx lines 75-86 keeps the most recently
delivered notification, so the tombstone does not win when delivered
first. -/
theorem tombstone_then_creation_cex :
    deliverAll dec0 [(StoreVal.tombstone, "X"), (StoreVal.payload "E", "X")] [] =
      Except.ok [("X", e0)] ∧
    lookupKey [("X", e0)] "X" ≠ none := by
  constructor
  · simp [deliverAll, onCollectionNotification, dec0, mapErase, mapInsert]
  · simp [lookupKey]

/-- C2 amended: the channel reflects the most recently delivered
notification for a key.  Delivering a tombstone for id X and afterwards a
creation payload that deserializes to entry e leaves X present and bound to
e (so a tombstone wins only when it is the last delivery for its key). -/
theorem last_delivered_wins (dec : String → Option OutPartyEntry)
    (s id : String) (e : OutPartyEntry) (m : List (String × OutPartyEntry))
    (h : dec s = some e) :
    deliverAll dec [(StoreVal.tombstone, id), (StoreVal.payload s, id)] m =
      Except.ok (mapInsert (mapErase m id) id e) ∧
    lookupKey (mapInsert (mapErase m id) id e) id = some e := by
  constructor
  · simp [deliverAll, onCollectionNotification, h]
  · exact lookupKey_mapInsert _ _ _

/-- Witness for the amended C2 at a concrete input. -/
theorem last_delivered_wins_witness :
    deliverAll dec0 [(StoreVal.tombstone, "X"), (StoreVal.payload "E", "X")]
        [("X", e0)] =
      Except.ok (mapInsert (mapErase [("X", e0)] "X") "X" e0) ∧
    lookupKey (mapInsert (mapErase [("X", e0)] "X") "X" e0) "X" = some e0 :=
  last_delivered_wins dec0 "E" "X" e0 [("X", e0)] (by simp [dec0])

/-- Counterexample to C8 as stated: the payload "Z" fails to deserialize
under the concrete decoder, and the handler neither drops the notification
nor leaves the map unchanged — it raises (Except.error), because the source
has no try/catch around JSON.parse. -/
theorem malformed_payload_cex :
    dec0 "Z" = none ∧
    onCollectionNotification dec0 (StoreVal.payload "Z") "X"
        ([] : List (String × OutPartyEntry)) ≠ Except.ok [] := by
  constructor
  · simp [dec0]
  · simp [onCollectionNotification, dec0]

/-- C8 amended: a non-tombstone payload that fails to deserialize makes the
subscription handler raise out of the callback (`Except.error`) instead of
ignoring the notification; the source wraps JSON.parse in no try/catch, so
the malformed delivery is not dropped-and-logged. -/
theorem malformed_payload_raises {α : Type} (dec : String → Option α)
    (s id : String) (m : List (String × α)) (h : dec s = none) :
    onCollectionNotification dec (StoreVal.payload s) id m = Except.error () := by
  simp [onCollectionNotification, h]

/-- Witness for the amended C8 at a concrete input. -/
theorem malformed_payload_raises_witness :
    onCollectionNotification dec0 (StoreVal.payload "Q") "X"
        ([("X", e0)] : List (String × OutPartyEntry)) = Except.error () :=
  malformed_payload_raises dec0 "Q" "X" [("X", e0)] (by simp [dec0])

/-- Screens the component can return after initialization. -/
inductive Screen
  | accessDenied
  | app (editable : Bool)
deriving DecidableEq, Repr

/-- Render guard of src/App.tsx lines 204-215 together with the canEdit
gating of the editing UI (lines 274, 325, 377): when the raw user-agent
signal is mobile and the declared device is the laptop class, the component
returns the blocking ACCESS DENIED screen; otherwise it renders the app,
whose entry forms and Day-End button are mounted only when canEdit. -/
def render (device : DeviceType) (isActuallyMobile : Bool) : Screen :=
  if isActuallyMobile && device == DeviceType.laptop then Screen.accessDenied
  else Screen.app (device == DeviceType.laptop)

/-- Whether a screen exposes any editing control (entry forms, delete
buttons, Day-End button). -/
def exposesEditing : Screen → Bool
  | Screen.accessDenied => false
  | Screen.app editable => editable

/-- C7: when the declared device class is the editor class (laptop) and the
raw platform signal indicates a handheld device, the component renders the
blocking ACCESS DENIED screen and no editing control or mutating operation
is exposed. -/
theorem mobile_laptop_access_denied :
    render DeviceType.laptop true = Screen.accessDenied ∧
    exposesEditing (render DeviceType.laptop true) = false := by
  constructor <;> rfl

/-- Local component state of a replica: the React state of src/App.tsx
(lines 19-28) that the claims are about. -/
structure AppState where
  device : DeviceType
  syncId : String
  openingBalance : ℚ
  outPartyMap : List (String × OutPartyEntry)
  mainEntryMap : List (String × MainEntry)
  historyList : List HistoryRecord
  rates : Rates
deriving DecidableEq, Repr

/-- Stable insertion into a list sorted ascending by index, the model of
the JS Array.sort comparator of src/App.tsx line 34. -/
def insertByIndex (e : OutPartyEntry) : List OutPartyEntry → List OutPartyEntry
  | [] => [e]
  | f :: rest =>
    if e.index ≤ f.index then e :: f :: rest else f :: insertByIndex e rest

/-- Derived array of src/App.tsx line 34: out-party map values sorted
ascending by index. -/
def outPartyEntriesOf (s : AppState) : List OutPartyEntry :=
  (s.outPartyMap.map Prod.snd).foldr insertByIndex []

/-- Derived array of src/App.tsx line 35: main-entry map values. -/
def mainEntriesOf (s : AppState) : List MainEntry :=
  s.mainEntryMap.map Prod.snd

/-- Role resolver of src/App.tsx line 147: only the laptop class edits. -/
def canEdit (s : AppState) : Bool :=
  s.device == DeviceType.laptop

/-- A store write emitted by an editor operation under the session root.
Serialization (JSON.stringify of entries and history, toString of the
balance) is carried at the typed level, `none` being the tombstone. -/
inductive StoreWrite
  | putOutParty (id : String) (v : Option OutPartyEntry)
  | putMainEntry (id : String) (v : Option MainEntry)
  | putBalance (b : ℚ)
  | putHistory (h : List HistoryRecord)
deriving DecidableEq, Repr

/-- addOutParty of src/App.tsx lines 149-154; `newId` models the
crypto.randomUUID() call. -/
def addOutParty (s : AppState) (newId : String) (method : PaymentMethod)
    (amount : ℚ) : List StoreWrite :=
  if !(canEdit s) || s.syncId == "" then []
  else [StoreWrite.putOutParty newId
    (some { id := newId, index := (outPartyEntriesOf s).length + 1,
            method := method, amount := amount })]

/-- removeOutParty of src/App.tsx lines 156-159. -/
def removeOutParty (s : AppState) (id : String) : List StoreWrite :=
  if !(canEdit s) || s.syncId == "" then []
  else [StoreWrite.putOutParty id none]

/-- addMainEntry of src/App.tsx lines 161-166. -/
def addMainEntry (s : AppState) (newId roomNo description : String)
    (method : PaymentMethod) (cashIn cashOut : ℚ) : List StoreWrite :=
  if !(canEdit s) || s.syncId == "" then []
  else [StoreWrite.putMainEntry newId
    (some { id := newId, roomNo := roomNo, description := description,
            method := method, cashIn := cashIn, cashOut := cashOut })]

/-- removeMainEntry of src/App.tsx lines 168-171. -/
def removeMainEntry (s : AppState) (id : String) : List StoreWrite :=
  if !(canEdit s) || s.syncId == "" then []
  else [StoreWrite.putMainEntry id none]

/-- The HistoryRecord constructed by handleDayEnd (src/App.tsx lines
177-187): the full pre-close snapshot plus the computed final balance. -/
def dayEndRecord (date : String) (s : AppState) : HistoryRecord :=
  { date := date,
    finalBalance :=
      (totals (outPartyEntriesOf s) (mainEntriesOf s) s.openingBalance).balance,
    record := { date := date, openingBalance := s.openingBalance,
                outPartyEntries := outPartyEntriesOf s,
                mainEntries := mainEntriesOf s,
                rates := s.rates } }

/-- Step 3 of the day-end sequence (src/App.tsx lines 192-194): one
tombstone write per live entry of each collection. -/
def dayEndTombstones (s : AppState) : List StoreWrite :=
  (outPartyEntriesOf s).map (fun e => StoreWrite.putOutParty e.id none) ++
  (mainEntriesOf s).map (fun e => StoreWrite.putMainEntry e.id none)

/-- handleDayEnd of src/App.tsx lines 173-199: role and session guard,
confirmation gate, then the tombstones followed by the balance and history
writes. -/
def handleDayEnd (s : AppState) (confirmed : Bool) (date : String) :
    List StoreWrite :=
  if !(canEdit s) || s.syncId == "" then []
  else if !confirmed then []
  else
    dayEndTombstones s ++
    [StoreWrite.putBalance
        (totals (outPartyEntriesOf s) (mainEntriesOf s) s.openingBalance).balance,
     StoreWrite.putHistory (dayEndRecord date s :: s.historyList)]

/-- Effect of a delivered write on a replica's local state: exactly the
subscription handlers of src/App.tsx lines 70-105 on the well-formed
payloads the editor produces. -/
def applyWrite (s : AppState) (w : StoreWrite) : AppState :=
  match w with
  | StoreWrite.putOutParty id none =>
    { s with outPartyMap := mapErase s.outPartyMap id }
  | StoreWrite.putOutParty id (some e) =>
    { s with outPartyMap := mapInsert s.outPartyMap id e }
  | StoreWrite.putMainEntry id none =>
    { s with mainEntryMap := mapErase s.mainEntryMap id }
  | StoreWrite.putMainEntry id (some e) =>
    { s with mainEntryMap := mapInsert s.mainEntryMap id e }
  | StoreWrite.putBalance b => { s with openingBalance := b }
  | StoreWrite.putHistory h => { s with historyList := h }

/-- Delivery of a write sequence to a replica, in order. -/
def applyWrites (s : AppState) (ws : List StoreWrite) : AppState :=
  ws.foldl applyWrite s

theorem applyWrites_append (s : AppState) (l₁ l₂ : List StoreWrite) :
    applyWrites s (l₁ ++ l₂) = applyWrites (applyWrites s l₁) l₂ := by
  simp [applyWrites, List.foldl_append]

theorem applyWrites_outTombstones (s : AppState) (l : List OutPartyEntry) :
    applyWrites s (l.map (fun e => StoreWrite.putOutParty e.id none)) =
      { s with outPartyMap := l.foldl (fun m e => mapErase m e.id) s.outPartyMap } := by
  induction l generalizing s with
  | nil => simp [applyWrites]
  | cons e t ih =>
    rw [List.map_cons]
    show applyWrites (applyWrite s (StoreWrite.putOutParty e.id none)) _ = _
    rw [show applyWrite s (StoreWrite.putOutParty e.id none) =
          { s with outPartyMap := mapErase s.outPartyMap e.id } from rfl, ih]
    simp [List.foldl_cons]

theorem applyWrites_mainTombstones (s : AppState) (l : List MainEntry) :
    applyWrites s (l.map (fun e => StoreWrite.putMainEntry e.id none)) =
      { s with mainEntryMap := l.foldl (fun m e => mapErase m e.id) s.mainEntryMap } := by
  induction l generalizing s with
  | nil => simp [applyWrites]
  | cons e t ih =>
    rw [List.map_cons]
    show applyWrites (applyWrite s (StoreWrite.putMainEntry e.id none)) _ = _
    rw [show applyWrite s (StoreWrite.putMainEntry e.id none) =
          { s with mainEntryMap := mapErase s.mainEntryMap e.id } from rfl, ih]
    simp [List.foldl_cons]

theorem foldl_mapErase_eq_nil {α : Type} :
    ∀ (ids : List String) (m : List (String × α)),
      (∀ p ∈ m, p.1 ∈ ids) → ids.foldl mapErase m = [] := by
  intro ids
  induction ids with
  | nil =>
    intro m h
    cases m with
    | nil => rfl
    | cons a t => exact absurd (h a (List.mem_cons_self a t)) (List.not_mem_nil _)
  | cons i rest ih =>
    intro m h
    rw [List.foldl_cons]
    refine ih (mapErase m i) ?_
    intro p hp
    have hpm : p ∈ m ∧ p.1 ≠ i := by
      have := List.mem_filter.mp hp
      constructor
      · exact this.1
      · simpa using this.2
    have : p.1 ∈ i :: rest := h p hpm.1
    rcases List.mem_cons.mp this with hEq | hIn
    · exact absurd hEq hpm.2
    · exact hIn

theorem insertByIndex_perm (e : OutPartyEntry) (l : List OutPartyEntry) :
    (insertByIndex e l).Perm (e :: l) := by
  induction l with
  | nil => exact List.Perm.refl _
  | cons f t ih =>
    rw [insertByIndex]
    by_cases h : e.index ≤ f.index
    · rw [if_pos h]
    · rw [if_neg h]
      exact (List.Perm.cons f ih).trans (List.Perm.swap e f t)

theorem outPartyEntriesOf_perm (s : AppState) :
    (outPartyEntriesOf s).Perm (s.outPartyMap.map Prod.snd) := by
  unfold outPartyEntriesOf
  generalize s.outPartyMap.map Prod.snd = l
  induction l with
  | nil => exact List.Perm.refl _
  | cons e t ih =>
    rw [List.foldr_cons]
    exact (insertByIndex_perm e _).trans (List.Perm.cons e ih)

theorem applyWrites_dayEndTombstones (s : AppState)
    (hop : ∀ p ∈ s.outPartyMap, p.2.id = p.1)
    (hmain : ∀ p ∈ s.mainEntryMap, p.2.id = p.1) :
    applyWrites s (dayEndTombstones s) =
      { s with outPartyMap := [], mainEntryMap := [] } := by
  have hcovOut : ∀ p ∈ s.outPartyMap,
      p.1 ∈ (outPartyEntriesOf s).map (fun e => e.id) := by
    intro p hp
    have h2 : p.2 ∈ outPartyEntriesOf s :=
      (outPartyEntriesOf_perm s).mem_iff.mpr (List.mem_map_of_mem Prod.snd hp)
    have := List.mem_map_of_mem (fun e => e.id) h2
    simpa [hop p hp] using this
  have hcovMain : ∀ p ∈ s.mainEntryMap,
      p.1 ∈ (mainEntriesOf s).map (fun e => e.id) := by
    intro p hp
    have h2 : p.2 ∈ mainEntriesOf s := List.mem_map_of_mem Prod.snd hp
    have := List.mem_map_of_mem (fun e => e.id) h2
    simpa [hmain p hp] using this
  have hOutNil :
      (outPartyEntriesOf s).foldl (fun m e => mapErase m e.id) s.outPartyMap = [] := by
    have h := foldl_mapErase_eq_nil
      ((outPartyEntriesOf s).map (fun e => e.id)) s.outPartyMap hcovOut
    simpa [List.foldl_map] using h
  have hMainNil :
      (mainEntriesOf s).foldl (fun m e => mapErase m e.id) s.mainEntryMap = [] := by
    have h := foldl_mapErase_eq_nil
      ((mainEntriesOf s).map (fun e => e.id)) s.mainEntryMap hcovMain
    simpa [List.foldl_map] using h
  rw [dayEndTombstones, applyWrites_append, applyWrites_outTombstones,
    applyWrites_mainTombstones]
  simp [hOutNil, hMainNil]

theorem totals_nil (b : ℚ) :
    totals [] [] b =
      { opCash := 0, opCard := 0, opPaypal := 0, totalCard := 0, totalPaypal := 0,
        totalCashIn := b, totalCashOut := 0, balance := b } := by
  simp [totals, reduceAmount, reduceCashIn, reduceCashOut]

/-- C5: on any device class other than the editor class (laptop), every
call to an add-entry, remove-entry, or Day-End operation emits no store
write, raises no error (each operation is a total function on its
arguments), and leaves local and replicated ledger state unchanged. -/
theorem nonEditor_noop (s : AppState) (newId roomNo description id : String)
    (method : PaymentMethod) (amount cashIn cashOut : ℚ)
    (confirmed : Bool) (date : String)
    (hdev : s.device ≠ DeviceType.laptop) :
    addOutParty s newId method amount = [] ∧
    removeOutParty s id = [] ∧
    addMainEntry s newId roomNo description method cashIn cashOut = [] ∧
    removeMainEntry s id = [] ∧
    handleDayEnd s confirmed date = [] ∧
    applyWrites s [] = s := by
  have hc : canEdit s = false := by simp [canEdit, hdev]
  refine ⟨?_, ?_, ?_, ?_, ?_, rfl⟩ <;>
    simp [addOutParty, removeOutParty, addMainEntry, removeMainEntry,
      handleDayEnd, hc]

/-- Concrete viewer-device state for the role-enforcement witness. -/
def sViewer : AppState :=
  { device := DeviceType.android, syncId := "S", openingBalance := 100,
    outPartyMap := [("X", e0)], mainEntryMap := [], historyList := [],
    rates := { usd := 310, eur := 335 } }

/-- Witness for C5 at a concrete viewer state. -/
theorem nonEditor_noop_witness :
    addOutParty sViewer "n" PaymentMethod.CASH 5 = [] ∧
    removeOutParty sViewer "X" = [] ∧
    addMainEntry sViewer "n" "1" "d" PaymentMethod.CASH 5 0 = [] ∧
    removeMainEntry sViewer "X" = [] ∧
    handleDayEnd sViewer true "d" = [] ∧
    applyWrites sViewer [] = sViewer :=
  nonEditor_noop sViewer "n" "1" "d" "X" PaymentMethod.CASH 5 5 0 true "d"
    (by simp [sViewer])

/-- C4: an uninterrupted Day-End run by the editor, from any live state
whose collections are keyed by entry id, computes the final balance via the
aggregation formulas over the pre-close state, tombstones every live entry
(both collection maps end empty), writes the new OpeningBalance equal to
that final balance, and prepends the snapshot HistoryRecord — embedding the
pre-close out-party entries, main entries, opening balance and exchange
rates — to the history, leaving all earlier records and the rest of the
state unchanged. -/
theorem dayEnd_uninterrupted (s : AppState) (date : String)
    (hdev : s.device = DeviceType.laptop) (hsync : s.syncId ≠ "")
    (hop : ∀ p ∈ s.outPartyMap, p.2.id = p.1)
    (hmain : ∀ p ∈ s.mainEntryMap, p.2.id = p.1) :
    applyWrites s (handleDayEnd s true date) =
      { s with
          openingBalance :=
            (totals (outPartyEntriesOf s) (mainEntriesOf s) s.openingBalance).balance,
          outPartyMap := [],
          mainEntryMap := [],
          historyList := dayEndRecord date s :: s.historyList } := by
  have hc : canEdit s = true := by simp [canEdit, hdev]
  have hs : (s.syncId == "") = false := by simp [hsync]
  rw [show handleDayEnd s true date =
        dayEndTombstones s ++
        [StoreWrite.putBalance
            (totals (outPartyEntriesOf s) (mainEntriesOf s) s.openingBalance).balance,
         StoreWrite.putHistory (dayEndRecord date s :: s.historyList)] from by
      simp [handleDayEnd, hc, hs]]
  rw [applyWrites_append, applyWrites_dayEndTombstones s hop hmain]
  simp [applyWrites, applyWrite]

/-- Concrete main entry for the day-end theorems. -/
def m0 : MainEntry :=
  { id := "m1", roomNo := "1", description := "a",
    method := PaymentMethod.CARD, cashIn := 50, cashOut := 20 }

/-- Concrete editor state with one live entry in each collection. -/
def sEditor : AppState :=
  { device := DeviceType.laptop, syncId := "S", openingBalance := 100,
    outPartyMap := [("X", e0)], mainEntryMap := [("m1", m0)],
    historyList := [], rates := { usd := 310, eur := 335 } }

/-- Witness for C4 at the concrete editor state. -/
theorem dayEnd_uninterrupted_witness :
    applyWrites sEditor (handleDayEnd sEditor true "d") =
      { sEditor with
          openingBalance :=
            (totals (outPartyEntriesOf sEditor) (mainEntriesOf sEditor)
              sEditor.openingBalance).balance,
          outPartyMap := [],
          mainEntryMap := [],
          historyList := dayEndRecord "d" sEditor :: sEditor.historyList } :=
  dayEnd_uninterrupted sEditor "d" (by rfl) (by simp [sEditor])
    (by intro p hp; simp [sEditor] at hp; subst hp; rfl)
    (by intro p hp; simp [sEditor] at hp; subst hp; rfl)

/-- Counterexample to C3 as stated: from the concrete editor state with one
live out-party entry (CASH 500) and one live main entry (CARD, cashIn 50,
cashOut 20) over opening balance 100, running Day-End but stopping after
step 3 and then re-running the full sequence yields final OpeningBalance
100 and an empty-snapshot history record, while the uninterrupted run
yields final OpeningBalance 580 and a history record embedding the entries:
both the final OpeningBalance and the final HistoryRecord differ. -/
theorem dayEnd_retry_cex :
    (applyWrites (applyWrites sEditor (dayEndTombstones sEditor))
        (handleDayEnd (applyWrites sEditor (dayEndTombstones sEditor)) true "d")).openingBalance ≠
      (applyWrites sEditor (handleDayEnd sEditor true "d")).openingBalance ∧
    (applyWrites (applyWrites sEditor (dayEndTombstones sEditor))
        (handleDayEnd (applyWrites sEditor (dayEndTombstones sEditor)) true "d")).historyList ≠
      (applyWrites sEditor (handleDayEnd sEditor true "d")).historyList := by
  have hS : ("S" : String) ≠ "" := by decide
  constructor <;>
    norm_num [sEditor, e0, m0, hS, handleDayEnd, dayEndTombstones, dayEndRecord,
      canEdit, outPartyEntriesOf, mainEntriesOf, insertByIndex, totals,
      reduceAmount, reduceCashIn, reduceCashOut, mapErase, mapInsert,
      applyWrites, applyWrite, instBEqOfDecidableEq, List.filter,
      show decide (PaymentMethod.CASH = PaymentMethod.CARD) = false from rfl,
      show decide (PaymentMethod.CASH = PaymentMethod.PAYPAL) = false from rfl,
      show decide (PaymentMethod.CARD = PaymentMethod.PAYPAL) = false from rfl]

/-- C3 amended: re-running the full Day-End sequence after an interruption
that completed only step 3 does converge, but to the archival of the
post-interruption (emptied) state, not of the original one: the retry
prepends a HistoryRecord with empty entry lists and finalBalance equal to
the pre-interruption opening balance, and leaves OpeningBalance at the
pre-interruption opening balance.  This coincides with the uninterrupted
run only when the original state had no live entries. -/
theorem dayEnd_retry_converges_to_emptied_state (s : AppState) (date : String)
    (hdev : s.device = DeviceType.laptop) (hsync : s.syncId ≠ "")
    (hop : ∀ p ∈ s.outPartyMap, p.2.id = p.1)
    (hmain : ∀ p ∈ s.mainEntryMap, p.2.id = p.1) :
    applyWrites (applyWrites s (dayEndTombstones s))
        (handleDayEnd (applyWrites s (dayEndTombstones s)) true date) =
      { s with
          outPartyMap := [],
          mainEntryMap := [],
          historyList :=
            { date := date, finalBalance := s.openingBalance,
              record := { date := date, openingBalance := s.openingBalance,
                          outPartyEntries := [], mainEntries := [],
                          rates := s.rates } } :: s.historyList } := by
  rw [applyWrites_dayEndTombstones s hop hmain]
  have hc : canEdit { s with outPartyMap := [], mainEntryMap := [] } = true := by
    simp [canEdit, hdev]
  have hs : (({ s with outPartyMap := [], mainEntryMap := [] } : AppState).syncId == "") = false := by
    simp [hsync]
  simp [handleDayEnd, hc, hs, dayEndTombstones, dayEndRecord, outPartyEntriesOf,
    mainEntriesOf, totals_nil, applyWrites, applyWrite]

/-- Witness for the amended C3 at the concrete editor state. -/
theorem dayEnd_retry_converges_witness :
    applyWrites (applyWrites sEditor (dayEndTombstones sEditor))
        (handleDayEnd (applyWrites sEditor (dayEndTombstones sEditor)) true "d") =
      { sEditor with
          outPartyMap := [],
          mainEntryMap := [],
          historyList :=
            { date := "d", finalBalance := sEditor.openingBalance,
              record := { date := "d", openingBalance := sEditor.openingBalance,
                          outPartyEntries := [], mainEntries := [],
                          rates := sEditor.rates } } :: sEditor.historyList } :=
  dayEnd_retry_converges_to_emptied_state sEditor "d" (by rfl) (by simp [sEditor])
    (by intro p hp; simp [sEditor] at hp; subst hp; rfl)
    (by intro p hp; simp [sEditor] at hp; subst hp; rfl)

/-- Witness for the amended C9 at the concrete example data with opening
balance 1000. -/
theorem totals_nonneg_witness :
    0 ≤ (totals exOutParty exMain 1000).opCash ∧
    0 ≤ (totals exOutParty exMain 1000).opCard ∧
    0 ≤ (totals exOutParty exMain 1000).opPaypal ∧
    0 ≤ (totals exOutParty exMain 1000).totalCard ∧
    0 ≤ (totals exOutParty exMain 1000).totalPaypal ∧
    0 ≤ (totals exOutParty exMain 1000).totalCashIn ∧
    0 ≤ (totals exOutParty exMain 1000).totalCashOut :=
  totals_nonneg exOutParty exMain 1000 (by norm_num)
    (by intro e he; fin_cases he <;> norm_num)
    (by intro e he; fin_cases he <;> constructor <;> norm_num)

end CashBook
